import Mathlib

/-
Verification of the pyintegration test-harness library.

This file gives a shallow embedding of the parts of the pyintegration
source that the properties below are about:

  * container.py        : the Container wrapper and the waitForReady
                          polling loop (exponential backoff),
  * constants.py        : the poll-timing constants,
  * flask_server.py     : the FlaskApp mock server (canned responses,
                          request statistics),
  * server_responses.py : the ServerResponses path/method table,
  * response_info.py    : the ResponseInfo record,
  * reports.py          : the report writer fed by the test runner,
  * integration_testrunner.py : the DebugTestResult collector,
  * integration_testcase.py   : the capture-scheme logic of tearDown,
  * background_process.py     : BackgroundProcess start/stop,
  * result.py           : the Result record,
  * utils.py            : bytesToString.

Modelling conventions:

  * Python dicts are modelled as association lists (List (keytype and
    value pairs)); Python dict assignment replaces the entry of an
    existing key in place and otherwise appends, which is what dictSet
    below does (Python dicts never hold duplicate keys).
  * Wall-clock time (datetime.now, sleep) is abstracted: the polling
    loop is modelled by the number of isReady checks it performs, and
    datetimes are abstract integers where a difference is taken.
  * Calls into the docker daemon, the filesystem and the subprocess
    module are abstracted into explicit parameters (the handle an
    operation would see, the bytes a file read would return); code
    paths that would raise a Python exception are modelled with Except.
  * Python floats are modelled as rationals; none of the arithmetic
    performed by the modelled code (max, min, doubling) distinguishes
    the two.
-/

/-! ## Association-list model of Python dicts -/

/-- Python dict lookup: the value stored under a key, if present. -/
def dictGet {α : Type} (d : List (String × α)) (k : String) : Option α :=
  (d.find? (fun kv => kv.1 == k)).map (·.2)

/-- Python dict assignment d[k] = v: replace the entry of an existing
key in place, otherwise append a new entry (insertion order is kept,
as for Python dicts). -/
def dictSet {α : Type} : List (String × α) → String → α → List (String × α)
  | [], k, v => [(k, v)]
  | kv :: rest, k, v =>
    if kv.1 == k then (k, v) :: rest else kv :: dictSet rest k v

theorem dictGet_nil {α : Type} (k : String) : dictGet ([] : List (String × α)) k = none := rfl

theorem dictGet_set_self {α : Type} (d : List (String × α)) (k : String) (v : α) :
    dictGet (dictSet d k v) k = some v := by
  induction d with
  | nil => simp [dictSet, dictGet, List.find?]
  | cons kv rest ih =>
    by_cases h : kv.1 == k
    · simp [dictSet, h, dictGet, List.find?]
    · simp only [dictSet, h, if_false]
      simpa [dictGet, List.find?, h] using ih

theorem dictGet_set_ne {α : Type} (d : List (String × α)) (k k' : String) (v : α)
    (h : k' ≠ k) : dictGet (dictSet d k v) k' = dictGet d k' := by
  have hkk' : (k == k') = false := by
    simp only [beq_eq_false_iff_ne]
    exact fun e => h e.symm
  induction d with
  | nil => simp [dictSet, dictGet, List.find?, hkk']
  | cons kv rest ih =>
    by_cases hk : kv.1 == k
    · have hkv : kv.1 = k := by simpa [beq_iff_eq] using hk
      have hkv' : (kv.1 == k') = false := by
        simp only [beq_eq_false_iff_ne, hkv]
        exact fun e => h e.symm
      simp [dictSet, hk, dictGet, List.find?, hkk', hkv']
    · by_cases hk' : kv.1 == k'
      · simp [dictSet, hk, dictGet, List.find?, hk']
      · simp only [dictSet, hk, if_false]
        simp only [dictGet, List.find?, hk'] at ih ⊢
        exact ih

theorem dictSet_set_same {α : Type} (d : List (String × α)) (k : String) (v w : α) :
    dictSet (dictSet d k v) k w = dictSet d k w := by
  induction d with
  | nil => simp [dictSet]
  | cons kv rest ih =>
    by_cases h : kv.1 == k
    · simp [dictSet, h]
    · simp [dictSet, h, ih]

/-! ## constants.py -/

def DEFAULT_CONTAINER_POLL_START : ℚ := 0.5
def DEFAULT_CONTAINER_POLL_MAX : ℚ := 2.0
def DEFAULT_CONTAINER_POLL_MIN : ℚ := 0.25
def DEFAULT_CONTAINER_READY_TIMEOUT : ℚ := 30.0

/-! ## container.py: the waitForReady backoff sequence

In waitForReady the variable poll_seconds starts at
max(start_poll_seconds, DEFAULT_CONTAINER_POLL_MIN); each loop
iteration clamps it with min(poll_seconds, max_poll_seconds), sleeps
for the clamped value, and then doubles the clamped value.  pollState
models the value of poll_seconds at the top of the k-th iteration and
sleepAt the duration passed to sleep on the k-th iteration. -/

def pollState (start_poll_seconds max_poll_seconds : ℚ) : ℕ → ℚ
  | 0 => max start_poll_seconds DEFAULT_CONTAINER_POLL_MIN
  | k + 1 => 2 * min (pollState start_poll_seconds max_poll_seconds k) max_poll_seconds

def sleepAt (start_poll_seconds max_poll_seconds : ℚ) (k : ℕ) : ℚ :=
  min (pollState start_poll_seconds max_poll_seconds k) max_poll_seconds

theorem sleepAt_nonneg (s m : ℚ) (hm : 0 ≤ m) : ∀ k, 0 ≤ sleepAt s m k := by
  intro k
  induction k with
  | zero =>
    have h1 : (0 : ℚ) ≤ max s DEFAULT_CONTAINER_POLL_MIN := by
      have : (0 : ℚ) ≤ DEFAULT_CONTAINER_POLL_MIN := by norm_num [DEFAULT_CONTAINER_POLL_MIN]
      exact le_trans this (le_max_right _ _)
    exact le_min h1 hm
  | succ k ih =>
    have h2 : (0 : ℚ) ≤ 2 * min (pollState s m k) m := by
      have : (0 : ℚ) ≤ min (pollState s m k) m := ih
      linarith
    exact le_min h2 hm

theorem sleepAt_lower (s m : ℚ) (hm : 0 ≤ m) :
    ∀ k, min (max s DEFAULT_CONTAINER_POLL_MIN) m ≤ sleepAt s m k := by
  intro k
  induction k with
  | zero => exact le_refl _
  | succ k ih =>
    have hnn : 0 ≤ sleepAt s m k := sleepAt_nonneg s m hm k
    have h2 : min (max s DEFAULT_CONTAINER_POLL_MIN) m ≤ 2 * sleepAt s m k := by
      have := ih
      linarith
    have hmle : min (max s DEFAULT_CONTAINER_POLL_MIN) m ≤ m := min_le_right _ _
    exact le_min (by simpa [sleepAt, pollState] using h2) hmle

theorem sleepAt_le_max (s m : ℚ) (k : ℕ) : sleepAt s m k ≤ m := min_le_right _ _

/-- C1: the waitForReady polling loop sleeps with bounded exponential
backoff: the first sleep is min(max(start_poll_seconds,
DEFAULT_CONTAINER_POLL_MIN), max_poll_seconds), each subsequent sleep
is min(2 times the previous sleep, max_poll_seconds), and (for a
non-negative max_poll_seconds, which any invocation that actually
sleeps must have) every sleep lies between that clamped start value and
max_poll_seconds. -/
theorem waitForReady_backoff (s m : ℚ) (k : ℕ) (hm : 0 ≤ m) :
    sleepAt s m 0 = min (max s DEFAULT_CONTAINER_POLL_MIN) m ∧
    sleepAt s m (k + 1) = min (2 * sleepAt s m k) m ∧
    min (max s DEFAULT_CONTAINER_POLL_MIN) m ≤ sleepAt s m k ∧
    sleepAt s m k ≤ m := by
  refine ⟨rfl, rfl, sleepAt_lower s m hm k, sleepAt_le_max s m k⟩

/-- C1 witness: the default start and max poll values at the fourth sleep. -/
theorem waitForReady_backoff_witness :
    (0 : ℚ) ≤ DEFAULT_CONTAINER_POLL_MAX ∧
    (sleepAt DEFAULT_CONTAINER_POLL_START DEFAULT_CONTAINER_POLL_MAX 0 =
      min (max DEFAULT_CONTAINER_POLL_START DEFAULT_CONTAINER_POLL_MIN) DEFAULT_CONTAINER_POLL_MAX ∧
    sleepAt DEFAULT_CONTAINER_POLL_START DEFAULT_CONTAINER_POLL_MAX 3 =
      min (2 * sleepAt DEFAULT_CONTAINER_POLL_START DEFAULT_CONTAINER_POLL_MAX 2) DEFAULT_CONTAINER_POLL_MAX ∧
    min (max DEFAULT_CONTAINER_POLL_START DEFAULT_CONTAINER_POLL_MIN) DEFAULT_CONTAINER_POLL_MAX ≤
      sleepAt DEFAULT_CONTAINER_POLL_START DEFAULT_CONTAINER_POLL_MAX 2 ∧
    sleepAt DEFAULT_CONTAINER_POLL_START DEFAULT_CONTAINER_POLL_MAX 2 ≤ DEFAULT_CONTAINER_POLL_MAX) := by
  constructor
  · norm_num [DEFAULT_CONTAINER_POLL_MAX]
  · exact waitForReady_backoff DEFAULT_CONTAINER_POLL_START DEFAULT_CONTAINER_POLL_MAX 2
      (by norm_num [DEFAULT_CONTAINER_POLL_MAX])

/-! ## utils.py -/

/-- Model of utils.bytesToString: empty input gives the empty string;
otherwise the bytes are decoded as us-ascii with errors ignored (bytes
of 128 and above are dropped) and carriage returns are removed. -/
def bytesToString (bs : List ℕ) : String :=
  if bs.isEmpty then ""
  else String.mk (((bs.filter (fun b => b < 128)).map (fun b => Char.ofNat b)).filter
    (fun ch => ch ≠ '\r'))

/-! ## container.py: the Container wrapper

A docker container handle as the wrapper sees it: its short id, its
status string and its current log bytes.  The docker daemon itself is
abstracted: a refresh or an isReady call takes as an extra argument the
handle that the daemon lookup by name would return at that moment. -/

structure DockerContainer where
  short_id : String
  status : String
  logBytes : List ℕ
  deriving DecidableEq

structure Container where
  name : String
  image_name : String
  print_commands : ℕ
  print_output : ℕ
  container : Option DockerContainer
  last_log_size : ℕ
  deriving DecidableEq

/-- Container.containerName: None without a handle, else the short id. -/
def Container.containerName (c : Container) : Option String :=
  c.container.map (·.short_id)

/-- Container.status: None without a handle, else the handle's status. -/
def Container.status (c : Container) : Option String :=
  c.container.map (·.status)

/-- Container.refresh: a no-op without a handle, else replaces the
handle by whatever the daemon lookup by name returns. -/
def Container.refresh (c : Container) (found : Option DockerContainer) : Container :=
  match c.container with
  | none => c
  | some _ => { c with container := found }

/-- Container.stop: without a handle return immediately; otherwise stop
the docker container (external effect) and set the handle to None. -/
def Container.stop (c : Container) : Container :=
  match c.container with
  | none => c
  | some _ => { c with container := none }

/-- Container.kill: same shape as stop. -/
def Container.kill (c : Container) : Container :=
  match c.container with
  | none => c
  | some _ => { c with container := none }

/-- Container.terminate: without a handle return immediately; otherwise
try to kill the container, and only on success set the handle to None
(on an exception the handle is left as it was).  Whether the kill call
succeeds is passed in as a flag. -/
def Container.terminate (c : Container) (kill_succeeds : Bool) : Container :=
  match c.container with
  | none => c
  | some _ => if kill_succeeds then { c with container := none } else c

/-- Container.logs: the empty string without a handle, else the decoded
log bytes. -/
def Container.logs (c : Container) : String :=
  match c.container with
  | none => ""
  | some h => bytesToString h.logBytes

/-- Container.isReady: false without a handle; otherwise refresh the
handle from the daemon and compare the refreshed status with the string
"running".  When the refresh comes back empty the attribute access on
None raises, modelled as an error. -/
def Container.isReadyM (c : Container) (found : Option DockerContainer) :
    Except String (Bool × Container) :=
  match c.container with
  | none => Except.ok (false, c)
  | some _ =>
    let c' := c.refresh found
    match c'.container with
    | none => Except.error "AttributeError: NoneType has no attribute status"
    | some h => Except.ok (h.status == "running", c')

/-! ## container.py: waitForReady

The loop keeps a list of not-yet-ready containers; each iteration
filters out the ones whose isReady() now returns true, breaks when the
list is empty, and otherwise sleeps and tries again until the deadline
passes.  The wall-clock deadline is abstracted into the number of
check rounds the deadline allows beyond the first (maxRounds); the
result of the k-th isReady() call on a container is given by the
abstract schedule ready. -/

def waitLoop (ready : ℕ → Container → Bool) : ℕ → ℕ → List Container → List Container
  | r, 0, unready => unready.filter (fun c => !(ready r c))
  | r, fuel + 1, unready =>
    let u := unready.filter (fun c => !(ready r c))
    if u.isEmpty then u else waitLoop ready (r + 1) fuel u

/-- Model of waitForReady: run the polling loop and return None when
everything became ready, else the list of still-unready containers. -/
def waitForReadyM (ready : ℕ → Container → Bool) (maxRounds : ℕ)
    (containers : List Container) : Option (List Container) :=
  let final := waitLoop ready 0 maxRounds containers
  if final.isEmpty then none else some final

/-- Predicate: the container was ready at none of the rounds
r, r+1, ..., r+fuel. -/
def neverReadyUpTo (ready : ℕ → Container → Bool) : ℕ → ℕ → Container → Bool
  | r, 0, c => !(ready r c)
  | r, fuel + 1, c => !(ready r c) && neverReadyUpTo ready (r + 1) fuel c

theorem neverReadyUpTo_eq_true_iff (ready : ℕ → Container → Bool) (fuel : ℕ) :
    ∀ (r : ℕ) (c : Container),
      neverReadyUpTo ready r fuel c = true ↔ ∀ i ≤ fuel, ready (r + i) c = false := by
  induction fuel with
  | zero =>
    intro r c
    simp only [neverReadyUpTo, Bool.not_eq_true']
    constructor
    · intro h i hi
      have : i = 0 := Nat.le_zero.mp hi
      simpa [this] using h
    · intro h
      simpa using h 0 (le_refl 0)
  | succ fuel ih =>
    intro r c
    simp only [neverReadyUpTo, Bool.and_eq_true, Bool.not_eq_true', ih (r + 1) c]
    constructor
    · rintro ⟨h0, hrest⟩ i hi
      match i with
      | 0 => simpa using h0
      | j + 1 =>
        have : r + (j + 1) = r + 1 + j := by omega
        rw [this]
        exact hrest j (by omega)
    · intro h
      refine ⟨by simpa using h 0 (by omega), fun j hj => ?_⟩
      have : r + 1 + j = r + (j + 1) := by omega
      rw [this]
      exact h (j + 1) (by omega)

theorem waitLoop_eq (ready : ℕ → Container → Bool) (fuel : ℕ) :
    ∀ (r : ℕ) (l : List Container),
      waitLoop ready r fuel l = l.filter (neverReadyUpTo ready r fuel) := by
  induction fuel with
  | zero =>
    intro r l
    simp only [waitLoop]
    apply List.filter_congr
    intro c _
    rfl
  | succ fuel ih =>
    intro r l
    simp only [waitLoop]
    by_cases hu : (l.filter (fun c => !(ready r c))).isEmpty
    · simp only [hu, if_true]
      have hnil : l.filter (fun c => !(ready r c)) = [] := List.isEmpty_iff.mp hu
      rw [hnil]
      symm
      rw [List.filter_eq_nil_iff] at hnil ⊢
      intro c hc hnever
      refine hnil c hc ?_
      simp only [neverReadyUpTo, Bool.and_eq_true] at hnever
      exact hnever.1
    · simp only [hu, if_false]
      rw [ih (r + 1) (l.filter (fun c => !(ready r c))), List.filter_filter]
      apply List.filter_congr
      intro c _
      simp only [neverReadyUpTo]
      exact Bool.and_comm _ _

/-- C2: the readiness check isReady is true exactly when the container
handle is set and the (refreshed) status string is "running"; the
polling loop returns None exactly when every container reported ready
at some check round within the deadline, and otherwise returns exactly
the containers that never reported ready at any check round. -/
theorem waitForReady_result (ready : ℕ → Container → Bool) (maxRounds : ℕ)
    (containers : List Container) :
    (∀ (c : Container) (found : Option DockerContainer) (b : Bool) (c' : Container),
      c.isReadyM found = Except.ok (b, c') →
        (b = true ↔ c.container.isSome ∧ ∃ h, found = some h ∧ h.status = "running")) ∧
    (waitForReadyM ready maxRounds containers = none ↔
      ∀ c ∈ containers, ∃ r ≤ maxRounds, ready r c = true) ∧
    (∀ l, waitForReadyM ready maxRounds containers = some l →
      l = containers.filter (neverReadyUpTo ready 0 maxRounds)) := by
  have hkey : waitLoop ready 0 maxRounds containers =
      containers.filter (neverReadyUpTo ready 0 maxRounds) := waitLoop_eq ready maxRounds 0 containers
  refine ⟨?_, ?_, ?_⟩
  · intro c found b c' hok
    match hc : c.container with
    | none =>
      simp only [Container.isReadyM, hc] at hok
      cases hok
      simp [hc]
    | some h0 =>
      match hf : found with
      | none =>
        simp [Container.isReadyM, hc, Container.refresh, hf] at hok
      | some h =>
        simp only [Container.isReadyM, hc, Container.refresh, hf] at hok
        cases hok
        simp [hc, beq_iff_eq]
  · rw [waitForReadyM]
    simp only [hkey]
    constructor
    · intro hnone c hc
      have hempty : (containers.filter (neverReadyUpTo ready 0 maxRounds)).isEmpty := by
        by_contra hne
        rw [if_neg hne] at hnone
        exact Option.some_ne_none _ hnone
      rw [List.isEmpty_iff, List.filter_eq_nil_iff] at hempty
      have := hempty c hc
      by_contra hnever
      push_neg at hnever
      refine this ?_
      rw [neverReadyUpTo_eq_true_iff]
      intro i hi
      have := hnever i hi
      simpa using this
    · intro hall
      have hempty : (containers.filter (neverReadyUpTo ready 0 maxRounds)) = [] := by
        rw [List.filter_eq_nil_iff]
        intro c hc hnever
        rw [neverReadyUpTo_eq_true_iff] at hnever
        obtain ⟨r, hr, hready⟩ := hall c hc
        have := hnever r hr
        simp only [Nat.zero_add] at this
        rw [hready] at this
        cases this
      simp [hempty]
  · intro l hsome
    rw [waitForReadyM] at hsome
    simp only [hkey] at hsome
    by_cases hempty : (containers.filter (neverReadyUpTo ready 0 maxRounds)).isEmpty
    · simp [hempty] at hsome
    · simp only [hempty, if_false] at hsome
      exact (Option.some_inj.mp hsome).symm

/-- Sample containers and readiness schedule for the C2 witness: one
container that reports ready on the second check round. -/
def cwReadyHandle : DockerContainer := { short_id := "abc123", status := "running", logBytes := [] }

def cwContainer : Container :=
  { name := "db", image_name := "img:latest", print_commands := 0, print_output := 0,
    container := some cwReadyHandle, last_log_size := 0 }

def cwSchedule : ℕ → Container → Bool := fun r _ => decide (1 ≤ r)

/-- C2 witness: concrete run of the polling loop and of the readiness
check, via waitForReady_result. -/
theorem waitForReady_result_witness :
    (cwContainer.isReadyM (some cwReadyHandle) =
      Except.ok (true, cwContainer.refresh (some cwReadyHandle)) →
      ((true : Bool) = true ↔ cwContainer.container.isSome ∧
        ∃ h, (some cwReadyHandle : Option DockerContainer) = some h ∧ h.status = "running")) ∧
    waitForReadyM cwSchedule 1 [cwContainer] = none :=
  ⟨(waitForReady_result cwSchedule 1 [cwContainer]).1 cwContainer (some cwReadyHandle)
      true (cwContainer.refresh (some cwReadyHandle)),
    (waitForReady_result cwSchedule 1 [cwContainer]).2.1.mpr
      (fun _ _ => ⟨1, le_refl 1, rfl⟩)⟩

/-- C10: stop, kill and a successful terminate always leave the handle
unset; and on a container whose handle is unset stop, kill and
terminate are no-ops, status and containerName return None, isReady
returns false, and logs returns the empty string. -/
theorem container_stop_idempotent (c : Container) :
    ((c.stop).container = none ∧ (c.kill).container = none ∧
      (c.terminate true).container = none) ∧
    (c.container = none →
      c.stop = c ∧ c.kill = c ∧ (∀ b, c.terminate b = c) ∧
      c.status = none ∧ c.containerName = none ∧
      (∀ found, c.isReadyM found = Except.ok (false, c)) ∧
      c.logs = "") := by
  constructor
  · match hc : c.container with
    | none => simp [Container.stop, Container.kill, Container.terminate, hc]
    | some h => simp [Container.stop, Container.kill, Container.terminate, hc]
  · intro hnone
    refine ⟨?_, ?_, ?_, ?_, ?_, ?_, ?_⟩
    · simp [Container.stop, hnone]
    · simp [Container.kill, hnone]
    · intro b
      simp [Container.terminate, hnone]
    · simp [Container.status, hnone]
    · simp [Container.containerName, hnone]
    · intro found
      simp [Container.isReadyM, hnone]
    · simp [Container.logs, hnone]

/-- Stopped container used in the C10 witness. -/
def cwStopped : Container :=
  { name := "db", image_name := "img:latest", print_commands := 0, print_output := 0,
    container := none, last_log_size := 0 }

/-- C10 witness: the no-op and getter facts on a concrete handle-less
container, via container_stop_idempotent. -/
theorem container_stop_idempotent_witness :
    cwStopped.stop = cwStopped ∧ cwStopped.status = none ∧ cwStopped.logs = "" :=
  ⟨((container_stop_idempotent cwStopped).2 rfl).1,
    ((container_stop_idempotent cwStopped).2 rfl).2.2.2.1,
    ((container_stop_idempotent cwStopped).2 rfl).2.2.2.2.2.2⟩

/-! ## A model of the Python values stored in the mock-server tables

The flask_server code is driven by Dict[str, Any] data, so the values
need a small model of Python data: None, bools, ints, strings, lists
and string-keyed dicts. -/

inductive PVal where
  | pynone
  | pybool (b : Bool)
  | pyint (n : ℤ)
  | pystr (s : String)
  | pylist (xs : List PVal)
  | pydict (entries : List (String × PVal))

/-- Python truthiness of a value (as used by "if value:"). -/
def truthy : PVal → Bool
  | .pynone => false
  | .pybool b => b
  | .pyint n => decide (n ≠ 0)
  | .pystr s => decide (s ≠ "")
  | .pylist xs => !xs.isEmpty
  | .pydict es => !es.isEmpty

/-- String content of a Python value; the modelled code only applies
this where the value is a string. -/
def pyStrOf : PVal → String
  | .pystr s => s
  | _ => ""

/-- Escaping of one character inside a JSON string as json.dumps does
it (the characters that actually occur in the modelled data; further
control characters would be escaped with backslash-u sequences). -/
def jescapeChar (ch : Char) : String :=
  if ch = '"' then "\\\""
  else if ch = '\\' then "\\\\"
  else if ch = '\n' then "\\n"
  else if ch = '\t' then "\\t"
  else if ch = '\r' then "\\r"
  else String.singleton ch

def jescape (s : String) : String :=
  String.join (s.toList.map jescapeChar)

mutual

/-- Model of json.dumps with its default separators. -/
def jdumps : PVal → String
  | .pynone => "null"
  | .pybool true => "true"
  | .pybool false => "false"
  | .pyint n => toString n
  | .pystr s => "\"" ++ jescape s ++ "\""
  | .pylist xs => "[" ++ jdumpsList xs ++ "]"
  | .pydict es => "\x7b" ++ jdumpsEntries es ++ "\x7d"

def jdumpsList : List PVal → String
  | [] => ""
  | [x] => jdumps x
  | x :: y :: xs => jdumps x ++ ", " ++ jdumpsList (y :: xs)

def jdumpsEntries : List (String × PVal) → String
  | [] => ""
  | [(k, v)] => "\"" ++ jescape k ++ "\": " ++ jdumps v
  | (k, v) :: e :: es => "\"" ++ jescape k ++ "\": " ++ jdumps v ++ ", " ++ jdumpsEntries (e :: es)

end

/-! ## flask_server.py: FlaskApp -/

/-- Python str.lower on the character list (ASCII data, as in the
modelled tables). -/
def pyToLower (s : String) : String := String.mk (s.toList.map Char.toLower)

/-- Python str.strip with a slash argument: remove leading and
trailing '/' characters. -/
def pyStripSlashes (s : String) : String :=
  String.mk (((s.toList.dropWhile (fun ch => ch = '/')).reverse.dropWhile
    (fun ch => ch = '/')).reverse)

/-- The key normalisation _annon inside FlaskApp._find_data:
lowercase, then strip surrounding slashes. -/
def annon (s : String) : String := pyStripSlashes (pyToLower s)

/-- FlaskApp._find_data: the first entry whose normalised key equals
the normalised needle. -/
def find_data {α : Type} (data : List (String × α)) (name : String) : Option α :=
  (data.find? (fun kv => annon kv.1 == annon name)).map (·.2)

/-- Statistics lookup with default 0, as statistics.get(key, 0). -/
def statsGet (stats : List (String × ℕ)) (k : String) : ℕ :=
  (dictGet stats k).getD 0

/-- Python dict .get(key, default) on a dict of Python values. -/
def pget (d : List (String × PVal)) (k : String) (dflt : PVal) : PVal :=
  (dictGet d k).getD dflt

/-- The mutable state of a FlaskApp: the canned response table (path
to method to method-data dict, the shape ServerResponses.for_server
produces), the captured request bodies, and the request statistics. -/
structure FlaskApp where
  response_data : List (String × List (String × List (String × PVal)))
  request_data : List (String × PVal)
  statistics : List (String × ℕ)

def FlaskApp.set_response_data (app : FlaskApp)
    (data : List (String × List (String × List (String × PVal)))) : FlaskApp :=
  { app with response_data := data }

def FlaskApp.get_statistics (app : FlaskApp) : List (String × ℕ) :=
  app.statistics

def FlaskApp.reset_statistics (app : FlaskApp) : FlaskApp :=
  { app with statistics := [] }

/-- The werkzeug Response the handler builds: the status passed, the
body data, and the content type and headers arguments when they were
passed at all (None means the framework default). -/
structure FResponse where
  status : PVal
  response : String
  content_type : Option PVal
  headers : Option PVal

/-- FlaskApp.process_request: bump the statistics counter for
"METHOD path", look the path up in the response table (case and
slash insensitive), then the method; missing path or method give a
404 with a JSON error body; otherwise build the response from the
method data, optionally capturing the request body and optionally
replacing the response data with a file's contents.  Reading the file
is abstracted into the readFile argument, and the request body
arrives already JSON-decoded. -/
def FlaskApp.process_request (app : FlaskApp) (readFile : String → String)
    (method path : String) (request_body : PVal) : FResponse × FlaskApp :=
  let stats_key := method ++ " " ++ path
  let app1 : FlaskApp :=
    { app with statistics :=
        dictSet app.statistics stats_key (statsGet app.statistics stats_key + 1) }
  match find_data app1.response_data path with
  | none =>
    ({ status := .pyint 404,
       response := jdumps (.pydict [("error", .pystr ("No path for " ++ path))]),
       content_type := none, headers := none }, app1)
  | some path_data =>
    match find_data path_data method with
    | none =>
      ({ status := .pyint 404,
         response := jdumps (.pydict [("error",
           .pystr ("No " ++ method ++ " method for path " ++ path))]),
         content_type := none, headers := none }, app1)
    | some method_data =>
      let app2 : FlaskApp :=
        if truthy (pget method_data "capture" (.pybool false)) then
          { app1 with request_data := dictSet app1.request_data path request_body }
        else app1
      let base : FResponse :=
        { status := pget method_data "status" (.pyint 200),
          response := jdumps (pget method_data "body" .pynone),
          content_type := some (pget method_data "content_type" (.pystr "application/json")),
          headers := some (pget method_data "headers" .pynone) }
      let fname := pget method_data "filename" .pynone
      let resp := if truthy fname then { base with response := readFile (pyStrOf fname) } else base
      (resp, app2)

theorem find_data_isSome_iff {α : Type} (data : List (String × α)) (name : String) :
    (find_data data name).isSome ↔ ∃ kv ∈ data, annon kv.1 = annon name := by
  unfold find_data
  cases hfd : List.find? (fun kv => annon kv.1 == annon name) data with
  | none =>
    rw [List.find?_eq_none] at hfd
    simp only [Option.map_none', Option.isSome_none, Bool.false_eq_true, false_iff]
    rintro ⟨kv, hmem, heq⟩
    exact hfd kv hmem (by simpa [beq_iff_eq] using heq)
  | some kv =>
    have hp := List.find?_some hfd
    have hmem := List.mem_of_find?_eq_some hfd
    simp only [Option.map_some', Option.isSome_some, true_iff]
    exact ⟨kv, hmem, by simpa [beq_iff_eq] using hp⟩

theorem process_request_stats_eq (app : FlaskApp) (rf : String → String)
    (method path : String) (body : PVal) :
    ((app.process_request rf method path body).2).statistics =
      dictSet app.statistics (method ++ " " ++ path)
        (statsGet app.statistics (method ++ " " ++ path) + 1) := by
  unfold FlaskApp.process_request
  dsimp only
  split
  · rfl
  · split
    · rfl
    · split <;> (split <;> rfl)

/-- C5: every processed request, including those answered with a 404,
bumps the statistics counter for the key "METHOD path" by exactly one,
leaves every other counter unchanged, get_statistics returns the
counter table, and reset_statistics empties it. -/
theorem process_request_statistics (app : FlaskApp) (rf : String → String)
    (method path : String) (body : PVal) (k : String)
    (hk : k ≠ method ++ " " ++ path) :
    statsGet ((app.process_request rf method path body).2).statistics (method ++ " " ++ path)
      = statsGet app.statistics (method ++ " " ++ path) + 1 ∧
    statsGet ((app.process_request rf method path body).2).statistics k
      = statsGet app.statistics k ∧
    app.get_statistics = app.statistics ∧
    (app.reset_statistics).statistics = [] := by
  refine ⟨?_, ?_, rfl, rfl⟩
  · rw [process_request_stats_eq app rf method path body]
    unfold statsGet
    rw [dictGet_set_self]
    rfl
  · rw [process_request_stats_eq app rf method path body]
    unfold statsGet
    rw [dictGet_set_ne _ _ _ _ hk]

/-- Empty mock-server state and trivial file reader for witnesses. -/
def cwApp : FlaskApp := { response_data := [], request_data := [], statistics := [] }

def cwReadFile : String → String := fun _ => ""

/-- C5 witness: a concrete 404 request still bumps exactly its own
counter, via process_request_statistics. -/
theorem process_request_statistics_witness :
    statsGet ((cwApp.process_request cwReadFile "GET" "pets" PVal.pynone).2).statistics
        ("GET" ++ " " ++ "pets")
      = statsGet cwApp.statistics ("GET" ++ " " ++ "pets") + 1 ∧
    statsGet ((cwApp.process_request cwReadFile "GET" "pets" PVal.pynone).2).statistics "POST x"
      = statsGet cwApp.statistics "POST x" ∧
    cwApp.get_statistics = cwApp.statistics ∧
    (cwApp.reset_statistics).statistics = [] :=
  process_request_statistics cwApp cwReadFile "GET" "pets" PVal.pynone "POST x" (by decide)

/-- C4 (amended): a request whose path and method both match a
configured entry (matching ignores case and surrounding slashes) gets
the configured status (default 200), content type (default
application/json) and headers, and its body is the JSON-encoded
configured body unless a truthy filename is configured, in which case
the body is that file's contents; a request with no matching path, or
a matching path but no matching method, gets a 404 whose JSON error
body is the only difference between the two failure cases. -/
theorem process_request_response (app : FlaskApp) (rf : String → String)
    (method path : String) (body : PVal) :
    ((find_data app.response_data path).isSome ↔
      ∃ kv ∈ app.response_data, annon kv.1 = annon path) ∧
    (∀ pd, find_data app.response_data path = some pd →
      ((find_data pd method).isSome ↔ ∃ kv ∈ pd, annon kv.1 = annon method)) ∧
    (∀ pd md, find_data app.response_data path = some pd →
      find_data pd method = some md →
      (app.process_request rf method path body).1 =
        { status := pget md "status" (.pyint 200),
          response := if truthy (pget md "filename" .pynone)
            then rf (pyStrOf (pget md "filename" .pynone))
            else jdumps (pget md "body" .pynone),
          content_type := some (pget md "content_type" (.pystr "application/json")),
          headers := some (pget md "headers" .pynone) }) ∧
    (find_data app.response_data path = none →
      (app.process_request rf method path body).1 =
        { status := .pyint 404,
          response := jdumps (.pydict [("error", .pystr ("No path for " ++ path))]),
          content_type := none, headers := none }) ∧
    (∀ pd, find_data app.response_data path = some pd →
      find_data pd method = none →
      (app.process_request rf method path body).1 =
        { status := .pyint 404,
          response := jdumps (.pydict [("error",
            .pystr ("No " ++ method ++ " method for path " ++ path))]),
          content_type := none, headers := none }) := by
  refine ⟨find_data_isSome_iff app.response_data path,
    fun pd _ => find_data_isSome_iff pd method, ?_, ?_, ?_⟩
  · intro pd md hp hm
    unfold FlaskApp.process_request
    dsimp only
    rw [hp]
    dsimp only
    rw [hm]
    dsimp only
    split
    · rfl
    · rfl
  · intro hp
    unfold FlaskApp.process_request
    dsimp only
    rw [hp]
  · intro pd hp hm
    unfold FlaskApp.process_request
    dsimp only
    rw [hp]
    dsimp only
    rw [hm]

/-- Mock-server state with a canned GET response for the C4 witness:
a status, a body, a content type and headers are configured. -/
def c4App : FlaskApp :=
  { response_data :=
      [("/Pets/", [("GET",
        [("status", .pyint 201), ("body", .pystr "ok"),
         ("content_type", .pystr "text/plain"),
         ("headers", .pydict [("x-job", .pystr "7")])])])],
    request_data := [], statistics := [] }

/-- C4 witness: the configured entry is served for a request that
matches up to case and slashes, via process_request_response. -/
theorem process_request_response_witness :
    (c4App.process_request cwReadFile "GET" "pets" PVal.pynone).1 =
      { status := .pyint 201,
        response := if truthy (pget
            [("status", .pyint 201), ("body", .pystr "ok"),
             ("content_type", .pystr "text/plain"),
             ("headers", .pydict [("x-job", .pystr "7")])] "filename" .pynone)
          then cwReadFile (pyStrOf (pget
            [("status", .pyint 201), ("body", .pystr "ok"),
             ("content_type", .pystr "text/plain"),
             ("headers", .pydict [("x-job", .pystr "7")])] "filename" .pynone))
          else jdumps (pget
            [("status", .pyint 201), ("body", .pystr "ok"),
             ("content_type", .pystr "text/plain"),
             ("headers", .pydict [("x-job", .pystr "7")])] "body" .pynone),
        content_type := some (pget
            [("status", .pyint 201), ("body", .pystr "ok"),
             ("content_type", .pystr "text/plain"),
             ("headers", .pydict [("x-job", .pystr "7")])] "content_type" (.pystr "application/json")),
        headers := some (pget
            [("status", .pyint 201), ("body", .pystr "ok"),
             ("content_type", .pystr "text/plain"),
             ("headers", .pydict [("x-job", .pystr "7")])] "headers" .pynone) } :=
  (process_request_response c4App cwReadFile "GET" "pets" PVal.pynone).2.2.1
    [("GET", [("status", .pyint 201), ("body", .pystr "ok"),
      ("content_type", .pystr "text/plain"), ("headers", .pydict [("x-job", .pystr "7")])])]
    [("status", .pyint 201), ("body", .pystr "ok"),
      ("content_type", .pystr "text/plain"), ("headers", .pydict [("x-job", .pystr "7")])]
    (by rfl) (by rfl)

/-- Mock-server state where the canned entry carries both a body and a
filename, and a file reader, for the C4 counterexample. -/
def c4CexApp : FlaskApp :=
  { response_data :=
      [("pets", [("GET", [("body", .pystr "hi"), ("filename", .pystr "data.bin")])])],
    request_data := [], statistics := [] }

def c4CexReadFile : String → String := fun _ => "RAWDATA"

/-- C4 counterexample: with a filename configured the response body is
the file's contents, not the JSON-encoded configured body, refuting
the claim as stated. -/
theorem process_request_response_cex :
    (c4CexApp.process_request c4CexReadFile "GET" "pets" PVal.pynone).1.response = "RAWDATA" ∧
    jdumps (pget [("body", .pystr "hi"), ("filename", .pystr "data.bin")] "body" .pynone)
      = "\"hi\"" ∧
    (c4CexApp.process_request c4CexReadFile "GET" "pets" PVal.pynone).1.response ≠ "\"hi\"" := by
  refine ⟨by rfl, by rfl, ?_⟩
  decide

/-! ## response_info.py and server_responses.py -/

/-- Model of str.startswith. -/
def pyStartsWith (s pre : String) : Bool := pre.toList.isPrefixOf s.toList

/-- ResponseInfo with the dataclass field defaults. -/
structure ResponseInfo where
  status : ℤ := 200
  headers : Option (List (String × String)) := none
  body : PVal := .pynone
  filename : Option String := none
  content_type : Option String := some "application/json"
  capture : Option Bool := none

/-- dataclasses.asdict on a ResponseInfo: all fields, in declaration
order, with None for unset optionals. -/
def ResponseInfo.as_dict (ri : ResponseInfo) : List (String × PVal) :=
  [("status", .pyint ri.status),
   ("headers", match ri.headers with
     | none => .pynone
     | some hs => .pydict (hs.map (fun kv => (kv.1, PVal.pystr kv.2)))),
   ("body", ri.body),
   ("filename", match ri.filename with | none => .pynone | some f => .pystr f),
   ("content_type", match ri.content_type with | none => .pynone | some ct => .pystr ct),
   ("capture", match ri.capture with | none => .pynone | some b => .pybool b)]

/-- ServerResponses state: the base path (stripped of surrounding
slashes by the constructor) and the path-to-method-to-info table. -/
structure ServerResponses where
  base_path : String
  responses : List (String × List (String × ResponseInfo))

/-- The ServerResponses constructor: strips slashes off the base path
and starts with an empty table. -/
def ServerResponses.create (base_path : String) : ServerResponses :=
  { base_path := pyStripSlashes base_path, responses := [] }

/-- ServerResponses.fullpath.  When the path does not already start
with the base path the source executes
a slash-string .join applied to two arguments (self.base_path and
path.strip of slashes); str.join takes exactly one iterable argument,
so that call raises a TypeError, modelled as an error value. -/
def ServerResponses.fullpath (sr : ServerResponses) (path : String) : Except String String :=
  if pyStartsWith path sr.base_path then Except.ok path
  else Except.error "TypeError: join() takes exactly one argument (2 given)"

/-- ServerResponses.add_response: compute the full path (which can
raise, see fullpath) and file the info under path then method. -/
def ServerResponses.add_response (sr : ServerResponses) (path method : String)
    (data : ResponseInfo) : Except String ServerResponses :=
  match sr.fullpath path with
  | Except.error e => Except.error e
  | Except.ok fp =>
    let path_data := (dictGet sr.responses fp).getD []
    Except.ok { sr with responses := dictSet sr.responses fp (dictSet path_data method data) }

/-- ServerResponses.for_server: the table with every info expanded by
as_dict. -/
def ServerResponses.for_server (sr : ServerResponses) :
    List (String × List (String × List (String × PVal))) :=
  sr.responses.map (fun kv => (kv.1, kv.2.map (fun mv => (mv.1, mv.2.as_dict))))

/-- The full path the C6 claim describes (and the evident intent of
the source comment): the path unchanged when it already starts with
the base path, else the base path joined to the slash-stripped path
with a slash. -/
def fullpathClaimed (base_path path : String) : String :=
  if pyStartsWith path base_path then path
  else base_path ++ "/" ++ pyStripSlashes path

/-- C6: on a ServerResponses with the non-empty base path "api",
adding a response under the path "pets" (which does not start with the
base path) raises a TypeError from the two-argument str.join call
instead of recording the info under "api/pets" as the claim states. -/
theorem add_response_join_bug :
    (ServerResponses.create "api").fullpath "pets" =
      Except.error "TypeError: join() takes exactly one argument (2 given)" ∧
    (ServerResponses.create "api").add_response "pets" "GET" {} =
      Except.error "TypeError: join() takes exactly one argument (2 given)" ∧
    fullpathClaimed "api" "pets" = "api/pets" := by
  refine ⟨by rfl, by rfl, by rfl⟩

/-! ## integration_testcase.py: the tearDown capture scheme -/

/-- The condition under which tearDown calls writeCaptureData: scheme
"all", or scheme "success" with a successful test, or any test that
was not successful (this last disjunct carries no scheme guard). -/
def tearDownWritesCapture (capture_scheme : Option String) (successful : Bool) : Bool :=
  (capture_scheme == some "all") ||
  ((capture_scheme == some "success") && successful) ||
  (!successful)

/-- writeCaptureData returns without writing when the captured data
list is empty, and otherwise writes the log file. -/
def writeCaptureDataWrites (capture_data : List String) : Bool :=
  !capture_data.isEmpty

/-- Whether a tearDown run persists the captured command log to disk. -/
def tearDownPersistsLog (capture_scheme : Option String) (successful : Bool)
    (capture_data : List String) : Bool :=
  tearDownWritesCapture capture_scheme successful && writeCaptureDataWrites capture_data

/-- C3: with a non-empty captured log, the code persists the log for a
failed test even under scheme "success" (the claim and the documented
policy say it must not); the other scheme combinations are shown
alongside.  The first conjunct is the failing input. -/
theorem tearDown_capture_scheme_behavior :
    tearDownPersistsLog (some "success") false ["log line"] = true ∧
    tearDownPersistsLog (some "all") true ["log line"] = true ∧
    tearDownPersistsLog (some "all") false ["log line"] = true ∧
    tearDownPersistsLog (some "success") true ["log line"] = true ∧
    tearDownPersistsLog (some "failure") true ["log line"] = false ∧
    tearDownPersistsLog (some "failure") false ["log line"] = true ∧
    tearDownPersistsLog (some "success") false [] = false := by
  decide

/-! ## result.py and background_process.py -/

/-- Joining captured lines back together, as a backslash-n join. -/
def joinLines : List String → String
  | [] => ""
  | [s] => s
  | s :: t :: rest => s ++ "\n" ++ joinLines (t :: rest)

/-- The Result record of result.py with its field defaults; the
timedelta is an abstract integer. -/
structure Result where
  return_value : ℤ := 0
  stdout : List String := []
  stderr : List String := []
  timediff : ℤ := 0
  command : Option String := none
  deriving DecidableEq

def Result.out (r : Result) : String := joinLines r.stdout

def Result.err (r : Result) : String := joinLines r.stderr

def Result.all (r : Result) : String := r.out ++ "\n" ++ r.err

/-- Python str.split on a newline: splitting the empty string gives a
single empty piece. -/
def splitLinesAux : List Char → List Char → List String
  | [], acc => [String.mk acc.reverse]
  | ch :: rest, acc =>
    if ch = '\n' then String.mk acc.reverse :: splitLinesAux rest []
    else splitLinesAux rest (ch :: acc)

def pySplitLines (s : String) : List String := splitLinesAux s.toList []

/-- BackgroundProcess state: the command alongside the mutable
process handle, start time and capture buffers, each None before
start() and after cleanup(). -/
structure BackgroundProcess where
  name : String
  command : String
  print_command : ℕ
  print_output : ℕ
  process : Option ℕ
  startTime : Option ℤ
  stdout : Option (List ℕ)
  stderr : Option (List ℕ)
  deriving DecidableEq

/-- BackgroundProcess.cleanup: close the buffers and reset every
mutable field to None. -/
def BackgroundProcess.cleanup (bp : BackgroundProcess) : BackgroundProcess :=
  { bp with stdout := none, stderr := none, process := none, startTime := none }

/-- BackgroundProcess.stop: None without a process; otherwise kill the
process (external effect), decode and split the captured buffers,
clean up, and return the Result.  The current time is a parameter;
attribute access on a None buffer or start time is an error. -/
def BackgroundProcess.stop (bp : BackgroundProcess) (now : ℤ) :
    Except String (Option Result × BackgroundProcess) :=
  match bp.process with
  | none => Except.ok (none, bp)
  | some _ =>
    match bp.startTime, bp.stdout, bp.stderr with
    | some t0, some outbuf, some errbuf =>
      Except.ok (some
        { return_value := 0,
          stdout := pySplitLines (bytesToString outbuf),
          stderr := pySplitLines (bytesToString errbuf),
          timediff := now - t0,
          command := some bp.command }, bp.cleanup)
    | _, _, _ => Except.error "AttributeError: NoneType"

/-- C8: stop returns None when no process was started; on a started
process it returns a Result carrying return value 0, the original
command string and the captured output split into lines, and resets
process, stdout, stderr and start time to None so a second stop
returns None. -/
theorem background_process_stop (bp : BackgroundProcess) (now : ℤ) :
    (bp.process = none → bp.stop now = Except.ok (none, bp)) ∧
    (∀ p t0 outbuf errbuf, bp.process = some p → bp.startTime = some t0 →
      bp.stdout = some outbuf → bp.stderr = some errbuf →
      bp.stop now = Except.ok (some
        { return_value := 0,
          stdout := pySplitLines (bytesToString outbuf),
          stderr := pySplitLines (bytesToString errbuf),
          timediff := now - t0,
          command := some bp.command }, bp.cleanup) ∧
      (bp.cleanup).process = none ∧ (bp.cleanup).startTime = none ∧
      (bp.cleanup).stdout = none ∧ (bp.cleanup).stderr = none ∧
      (∀ now2, (bp.cleanup).stop now2 = Except.ok (none, bp.cleanup))) := by
  constructor
  · intro hnone
    unfold BackgroundProcess.stop
    rw [hnone]
  · intro p t0 outbuf errbuf hp ht ho he
    refine ⟨?_, rfl, rfl, rfl, rfl, fun now2 => rfl⟩
    unfold BackgroundProcess.stop
    rw [hp, ht, ho, he]

/-- Started background process for the C8 witness: captured stdout
bytes spell "hi", stderr is empty. -/
def bpStarted : BackgroundProcess :=
  { name := "svc", command := "run svc", print_command := 0, print_output := 0,
    process := some 42, startTime := some 10, stdout := some [104, 105], stderr := some [] }

/-- C8 witness: stopping the started process yields the captured
Result and a second stop returns None, via background_process_stop. -/
theorem background_process_stop_witness :
    bpStarted.stop 12 = Except.ok (some
      { return_value := 0,
        stdout := pySplitLines (bytesToString [104, 105]),
        stderr := pySplitLines (bytesToString []),
        timediff := 12 - 10,
        command := some "run svc" }, bpStarted.cleanup) ∧
    (bpStarted.cleanup).stop 99 = Except.ok (none, bpStarted.cleanup) :=
  ⟨((background_process_stop bpStarted 12).2 42 10 [104, 105] [] rfl rfl rfl rfl).1,
    ((background_process_stop bpStarted 12).2 42 10 [104, 105] [] rfl rfl rfl rfl).2.2.2.2.2 99⟩

/-! ## testcase_results.py -/

def ERROR : String := "error"
def FAILURE : String := "failure"
def SKIPPED : String := "skipped"
def SUCCESS : String := "success"

/-- The TestCaseResults dataclass with its field defaults; datetimes
are abstract integers. -/
structure TestCaseResults where
  testname : String
  classname : String
  filename : String
  line : ℕ
  result : Option String := none
  message : Option String := none
  starttime : Option ℤ := none
  endtime : Option ℤ := none
  deriving DecidableEq

/-! ## integration_testrunner.py: the DebugTestResult collector

A unittest TestCase as the collector sees it: its method name, module,
class name, and the source file and line the inspect calls return
(those calls are abstracted into fields). -/

structure PyTest where
  _testMethodName : String
  module : String
  className : String
  sourceFile : String
  line : ℕ

/-- name_from_test: solely the test's method name. -/
def name_from_test (t : PyTest) : String := t._testMethodName

/-- The record startTest builds: name, classname
(module.ClassName), filename, line, and the start time. -/
def mkTestCaseData (t : PyTest) (now : ℤ) : TestCaseResults :=
  { testname := name_from_test t, classname := t.module ++ "." ++ t.className,
    filename := t.sourceFile, line := t.line, starttime := some now }

/-- DebugTestResult.startTest: store the new record under the method
name. -/
def DebugTestResult.startTest (data : List (String × TestCaseResults)) (t : PyTest)
    (now : ℤ) : List (String × TestCaseResults) :=
  dictSet data (name_from_test t) (mkTestCaseData t now)

/-- Indexing testCaseData[name] and mutating the record; a missing
key raises KeyError. -/
def dictUpdateAt (data : List (String × TestCaseResults)) (k : String)
    (f : TestCaseResults → TestCaseResults) :
    Except String (List (String × TestCaseResults)) :=
  match dictGet data k with
  | none => Except.error ("KeyError: " ++ k)
  | some v => Except.ok (dictSet data k (f v))

def DebugTestResult.addSuccess (data : List (String × TestCaseResults)) (t : PyTest) :
    Except String (List (String × TestCaseResults)) :=
  dictUpdateAt data (name_from_test t) (fun r => { r with result := some SUCCESS })

def DebugTestResult.addFailure (data : List (String × TestCaseResults)) (t : PyTest)
    (msg : String) : Except String (List (String × TestCaseResults)) :=
  dictUpdateAt data (name_from_test t)
    (fun r => { r with result := some FAILURE, message := some msg })

def DebugTestResult.addError (data : List (String × TestCaseResults)) (t : PyTest)
    (msg : String) : Except String (List (String × TestCaseResults)) :=
  dictUpdateAt data (name_from_test t)
    (fun r => { r with result := some ERROR, message := some msg })

def DebugTestResult.addSkip (data : List (String × TestCaseResults)) (t : PyTest)
    (reason : String) : Except String (List (String × TestCaseResults)) :=
  dictUpdateAt data (name_from_test t)
    (fun r => { r with result := some SKIPPED, message := some reason })

def DebugTestResult.stopTest (data : List (String × TestCaseResults)) (t : PyTest)
    (now : ℤ) : Except String (List (String × TestCaseResults)) :=
  dictUpdateAt data (name_from_test t) (fun r => { r with endtime := some now })

theorem filter_key_eq_nil {α : Type} (l : List (String × α)) (k : String)
    (h : k ∉ l.map Prod.fst) : l.filter (fun kv => kv.1 == k) = [] := by
  rw [List.filter_eq_nil_iff]
  intro kv hkv hbeq
  exact h (List.mem_map.mpr ⟨kv, hkv, by simpa [beq_iff_eq] using hbeq⟩)

theorem dictSet_filter_key {α : Type} (d : List (String × α)) (k : String) (v : α)
    (hnodup : (d.map Prod.fst).Nodup) :
    (dictSet d k v).filter (fun kv => kv.1 == k) = [(k, v)] := by
  induction d with
  | nil => simp [dictSet]
  | cons kv rest ih =>
    rw [List.map_cons, List.nodup_cons] at hnodup
    by_cases h : kv.1 == k
    · have hk : kv.1 = k := by simpa [beq_iff_eq] using h
      have hrest : rest.filter (fun kv2 => kv2.1 == k) = [] := by
        refine filter_key_eq_nil rest k ?_
        rw [← hk]
        exact hnodup.1
      simp [dictSet, h, List.filter_cons, hrest]
    · simp only [dictSet]
      rw [if_neg h, List.filter_cons, if_neg h]
      exact ih hnodup.2

/-- C9: the collector keys records solely by the method name, so
starting a second test with the same method name (in any class)
overwrites the first test's record: the stored table equals a single
assignment of the second record, the lookup under the shared name
yields the second record, the table holds exactly one entry for that
name, and entries under other names are untouched. -/
theorem collector_keys_by_method_name (data : List (String × TestCaseResults))
    (t1 t2 : PyTest) (now1 now2 : ℤ)
    (hname : name_from_test t1 = name_from_test t2)
    (hnodup : (data.map Prod.fst).Nodup) :
    name_from_test t1 = t1._testMethodName ∧
    DebugTestResult.startTest (DebugTestResult.startTest data t1 now1) t2 now2 =
      dictSet data (name_from_test t1) (mkTestCaseData t2 now2) ∧
    dictGet (DebugTestResult.startTest (DebugTestResult.startTest data t1 now1) t2 now2)
      (name_from_test t1) = some (mkTestCaseData t2 now2) ∧
    ((DebugTestResult.startTest (DebugTestResult.startTest data t1 now1) t2 now2).filter
      (fun kv => kv.1 == name_from_test t1)).map Prod.snd = [mkTestCaseData t2 now2] ∧
    (∀ k, k ≠ name_from_test t1 →
      dictGet (DebugTestResult.startTest (DebugTestResult.startTest data t1 now1) t2 now2) k
        = dictGet data k) := by
  have h2 : DebugTestResult.startTest (DebugTestResult.startTest data t1 now1) t2 now2 =
      dictSet data (name_from_test t1) (mkTestCaseData t2 now2) := by
    unfold DebugTestResult.startTest
    rw [← hname]
    exact dictSet_set_same data (name_from_test t1) (mkTestCaseData t1 now1)
      (mkTestCaseData t2 now2)
  refine ⟨rfl, h2, ?_, ?_, ?_⟩
  · rw [h2]
    exact dictGet_set_self data (name_from_test t1) (mkTestCaseData t2 now2)
  · rw [h2, dictSet_filter_key data (name_from_test t1) (mkTestCaseData t2 now2) hnodup]
    rfl
  · intro k hk
    rw [h2]
    exact dictGet_set_ne data (name_from_test t1) k (mkTestCaseData t2 now2) hk

/-- Two tests sharing the method name test_x in different classes, for
the C9 witness. -/
def t9a : PyTest :=
  { _testMethodName := "test_x", module := "pkg.a", className := "ATest",
    sourceFile := "a.py", line := 10 }

def t9b : PyTest :=
  { _testMethodName := "test_x", module := "pkg.b", className := "BTest",
    sourceFile := "b.py", line := 20 }

/-- C9 witness: the second started test's record overwrites the first
in a concrete run, via collector_keys_by_method_name. -/
theorem collector_keys_by_method_name_witness :
    dictGet (DebugTestResult.startTest (DebugTestResult.startTest [] t9a 5) t9b 7)
      (name_from_test t9a) = some (mkTestCaseData t9b 7) ∧
    ((DebugTestResult.startTest (DebugTestResult.startTest [] t9a 5) t9b 7).filter
      (fun kv => kv.1 == name_from_test t9a)).map Prod.snd = [mkTestCaseData t9b 7] :=
  ⟨(collector_keys_by_method_name [] t9a t9b 5 7 rfl (by simp)).2.2.1,
    (collector_keys_by_method_name [] t9a t9b 5 7 rfl (by simp)).2.2.2.1⟩

/-! ## reports.py: write_reports

The writer takes the collected records (testCaseData.values()), groups
them by classname into suites (a dict built in insertion order), and
prints per-suite properties; printing is abstracted and the computed
suite properties are returned. -/

/-- count_result: how many records carry the given result value. -/
def count_result (items : List TestCaseResults) (result : String) : ℕ :=
  (items.filter (fun x => x.result == some result)).length

/-- One step of the suites-dict construction in write_reports: fetch
the existing group for the record's classname (or a fresh one), append
the record, and store it back. -/
def addToGroup (acc : List (String × List TestCaseResults)) (item : TestCaseResults) :
    List (String × List TestCaseResults) :=
  match acc with
  | [] => [(item.classname, [item])]
  | kv :: rest =>
    if kv.1 == item.classname then (kv.1, kv.2 ++ [item]) :: rest
    else kv :: addToGroup rest item

def groupByClass (records : List TestCaseResults) : List (String × List TestCaseResults) :=
  records.foldl addToGroup []

/-- The per-suite properties write_reports assembles. -/
structure SuiteProps where
  name : String
  tests : ℕ
  failures : ℕ
  errors : ℕ
  skipped : ℕ
  success : ℕ
  filename : String
  deriving DecidableEq

def suite_props (classname : String) (testcases : List TestCaseResults) : SuiteProps :=
  { name := classname, tests := testcases.length,
    failures := count_result testcases FAILURE,
    errors := count_result testcases ERROR,
    skipped := count_result testcases SKIPPED,
    success := count_result testcases SUCCESS,
    filename := (testcases.head?.map (·.filename)).getD "" }

def write_reports (records : List TestCaseResults) : List SuiteProps :=
  (groupByClass records).map (fun kv => suite_props kv.1 kv.2)

theorem addToGroup_get_self (acc : List (String × List TestCaseResults))
    (item : TestCaseResults) :
    dictGet (addToGroup acc item) item.classname =
      some ((dictGet acc item.classname).getD [] ++ [item]) := by
  induction acc with
  | nil => simp [addToGroup, dictGet, List.find?]
  | cons kv rest ih =>
    by_cases h : kv.1 == item.classname
    · simp [addToGroup, h, dictGet, List.find?]
    · simp only [addToGroup]
      rw [if_neg h]
      simp only [dictGet, List.find?, h] at ih ⊢
      exact ih

theorem addToGroup_get_ne (acc : List (String × List TestCaseResults))
    (item : TestCaseResults) (k : String) (h : k ≠ item.classname) :
    dictGet (addToGroup acc item) k = dictGet acc k := by
  have hck : (item.classname == k) = false := by
    simp only [beq_eq_false_iff_ne]
    exact fun e => h e.symm
  induction acc with
  | nil => simp [addToGroup, dictGet, List.find?, hck]
  | cons kv rest ih =>
    by_cases hkv : kv.1 == item.classname
    · have hkvk : (kv.1 == k) = false := by
        have : kv.1 = item.classname := by simpa [beq_iff_eq] using hkv
        simp only [this, beq_eq_false_iff_ne]
        exact fun e => h e.symm
      simp [addToGroup, hkv, dictGet, List.find?, hkvk]
    · simp only [addToGroup]
      rw [if_neg hkv]
      by_cases hkk : kv.1 == k
      · simp [dictGet, List.find?, hkk]
      · simp only [dictGet, List.find?, hkk] at ih ⊢
        exact ih

theorem mem_keys_addToGroup (acc : List (String × List TestCaseResults))
    (item : TestCaseResults) (k : String)
    (hmem : k ∈ (addToGroup acc item).map Prod.fst) :
    k ∈ acc.map Prod.fst ∨ k = item.classname := by
  induction acc with
  | nil => simpa [addToGroup] using hmem
  | cons kv rest ih =>
    by_cases h : kv.1 == item.classname
    · simp only [addToGroup, h, if_true] at hmem
      exact Or.inl (by simpa using hmem)
    · simp only [addToGroup] at hmem
      rw [if_neg h] at hmem
      simp only [List.map_cons, List.mem_cons] at hmem ⊢
      rcases hmem with hmem | hmem
      · exact Or.inl (Or.inl hmem)
      · rcases ih hmem with h2 | h2
        · exact Or.inl (Or.inr h2)
        · exact Or.inr h2

theorem addToGroup_keys_nodup (acc : List (String × List TestCaseResults))
    (item : TestCaseResults) (h : (acc.map Prod.fst).Nodup) :
    ((addToGroup acc item).map Prod.fst).Nodup := by
  induction acc with
  | nil => simp [addToGroup]
  | cons kv rest ih =>
    rw [List.map_cons, List.nodup_cons] at h
    by_cases hb : kv.1 == item.classname
    · simp only [addToGroup, hb, if_true, List.map_cons, List.nodup_cons]
      exact ⟨h.1, h.2⟩
    · simp only [addToGroup]
      rw [if_neg hb]
      rw [List.map_cons, List.nodup_cons]
      refine ⟨?_, ih h.2⟩
      intro hmem
      rcases mem_keys_addToGroup rest item kv.1 hmem with h2 | h2
      · exact h.1 h2
      · exact absurd h2 (by simpa [beq_iff_eq] using hb)

theorem groupByClass_keys_nodup (records : List TestCaseResults) :
    ((groupByClass records).map Prod.fst).Nodup := by
  unfold groupByClass
  have key : ∀ (rs : List TestCaseResults) (acc : List (String × List TestCaseResults)),
      (acc.map Prod.fst).Nodup → ((rs.foldl addToGroup acc).map Prod.fst).Nodup := by
    intro rs
    induction rs with
    | nil => intro acc hacc; simpa using hacc
    | cons item rest ih =>
      intro acc hacc
      exact ih (addToGroup acc item) (addToGroup_keys_nodup acc item hacc)
  exact key records [] (by simp)

theorem dictGet_of_mem_nodup {α : Type} (l : List (String × α)) (k : String) (v : α)
    (hmem : (k, v) ∈ l) (hnodup : (l.map Prod.fst).Nodup) : dictGet l k = some v := by
  induction l with
  | nil => cases hmem
  | cons kv rest ih =>
    rw [List.map_cons, List.nodup_cons] at hnodup
    rcases List.mem_cons.mp hmem with h | h
    · rw [← h]
      simp [dictGet, List.find?]
    · by_cases hk : kv.1 == k
      · exfalso
        have hkk : kv.1 = k := by simpa [beq_iff_eq] using hk
        refine hnodup.1 ?_
        rw [hkk]
        exact List.mem_map.mpr ⟨(k, v), h, rfl⟩
      · simp only [dictGet, List.find?, hk]
        exact ih h hnodup.2

theorem groupByClass_lookup (records : List TestCaseResults) (cls : String) :
    (dictGet (groupByClass records) cls).getD [] =
      records.filter (fun r => r.classname == cls) := by
  unfold groupByClass
  have key : ∀ (rs : List TestCaseResults) (acc : List (String × List TestCaseResults))
      (processed : List TestCaseResults),
      (∀ c, (dictGet acc c).getD [] = processed.filter (fun r => r.classname == c)) →
      ∀ c, (dictGet (rs.foldl addToGroup acc) c).getD [] =
        (processed ++ rs).filter (fun r => r.classname == c) := by
    intro rs
    induction rs with
    | nil =>
      intro acc processed hacc c
      simpa using hacc c
    | cons item rest ih =>
      intro acc processed hacc c
      have hstep : ∀ c2, (dictGet (addToGroup acc item) c2).getD [] =
          (processed ++ [item]).filter (fun r => r.classname == c2) := by
        intro c2
        by_cases hc : c2 = item.classname
        · subst hc
          rw [addToGroup_get_self, List.filter_append]
          simp only [Option.getD_some]
          rw [hacc item.classname]
          have : [item].filter (fun r => r.classname == item.classname) = [item] := by simp
          rw [this]
        · rw [addToGroup_get_ne acc item c2 hc, hacc c2, List.filter_append]
          have : [item].filter (fun r => r.classname == c2) = [] := by
            simp only [List.filter_eq_nil_iff]
            intro a ha
            rw [List.mem_singleton] at ha
            subst ha
            simp only [beq_iff_eq]
            exact fun e => hc e.symm
          rw [this, List.append_nil]
      have := ih (addToGroup acc item) (processed ++ [item]) hstep c
      rw [List.foldl_cons]
      rw [this, List.append_assoc]
      rfl
  have := key records [] [] (fun c => by simp [dictGet]) cls
  simpa using this

theorem count_result_cons (x : TestCaseResults) (g : List TestCaseResults) (R : String) :
    count_result (x :: g) R =
      (if x.result == some R then 1 else 0) + count_result g R := by
  unfold count_result
  rw [List.filter_cons]
  by_cases hp : (x.result == some R) = true
  · simp only [hp, if_true, List.length_cons]
    omega
  · simp [hp]

theorem count_four_eq_length (g : List TestCaseResults)
    (h : ∀ r ∈ g, r.result = some FAILURE ∨ r.result = some ERROR ∨
      r.result = some SKIPPED ∨ r.result = some SUCCESS) :
    count_result g FAILURE + count_result g ERROR + count_result g SKIPPED +
      count_result g SUCCESS = g.length := by
  induction g with
  | nil => rfl
  | cons x g ih =>
    have hx := h x (List.mem_cons_self x g)
    have ih' := ih (fun r hr => h r (List.mem_cons_of_mem x hr))
    simp only [FAILURE, ERROR, SKIPPED, SUCCESS] at hx ih' ⊢
    rw [count_result_cons, count_result_cons, count_result_cons, count_result_cons,
      List.length_cons]
    rcases hx with h1 | h1 | h1 | h1 <;> (rw [h1]; simp; omega)

/-- C7 (amended): write_reports groups the records by class name; each
suite's tests count is the number of records with that class name and
each of the failures/errors/skipped/success counts is the number of
records in the group with that result value, unconditionally; and
provided every record's result is one of those four values (records
left without a result, such as expected failures, would make the sum
smaller), the four counts sum to the tests count. -/
theorem write_reports_suite_counts (records : List TestCaseResults) :
    ∀ sp ∈ write_reports records,
      sp.tests = (records.filter (fun r => r.classname == sp.name)).length ∧
      sp.failures = count_result (records.filter (fun r => r.classname == sp.name)) FAILURE ∧
      sp.errors = count_result (records.filter (fun r => r.classname == sp.name)) ERROR ∧
      sp.skipped = count_result (records.filter (fun r => r.classname == sp.name)) SKIPPED ∧
      sp.success = count_result (records.filter (fun r => r.classname == sp.name)) SUCCESS ∧
      ((∀ r ∈ records, r.result = some FAILURE ∨ r.result = some ERROR ∨
          r.result = some SKIPPED ∨ r.result = some SUCCESS) →
        sp.failures + sp.errors + sp.skipped + sp.success = sp.tests) := by
  intro sp hsp
  obtain ⟨kv, hmem, rfl⟩ := List.mem_map.mp hsp
  have hget : dictGet (groupByClass records) kv.1 = some kv.2 :=
    dictGet_of_mem_nodup (groupByClass records) kv.1 kv.2 hmem (groupByClass_keys_nodup records)
  have hg : kv.2 = records.filter (fun r => r.classname == kv.1) := by
    have := groupByClass_lookup records kv.1
    rw [hget] at this
    simpa using this
  have hname : (suite_props kv.1 kv.2).name = kv.1 := rfl
  rw [hname]
  refine ⟨?_, ?_, ?_, ?_, ?_, ?_⟩
  · show kv.2.length = _
    rw [hg]
  · show count_result kv.2 FAILURE = _
    rw [hg]
  · show count_result kv.2 ERROR = _
    rw [hg]
  · show count_result kv.2 SKIPPED = _
    rw [hg]
  · show count_result kv.2 SUCCESS = _
    rw [hg]
  · intro hres
    have hsub : ∀ r ∈ kv.2, r.result = some FAILURE ∨ r.result = some ERROR ∨
        r.result = some SKIPPED ∨ r.result = some SUCCESS := by
      intro r hr
      rw [hg] at hr
      exact hres r (List.mem_filter.mp hr).1
    show count_result kv.2 FAILURE + count_result kv.2 ERROR + count_result kv.2 SKIPPED +
      count_result kv.2 SUCCESS = kv.2.length
    exact count_four_eq_length kv.2 hsub

/-- Records for the C7 witness: one failed and one succeeded test in
the same class. -/
def w7r1 : TestCaseResults :=
  { testname := "test_a", classname := "pkg.CTest", filename := "c.py", line := 3,
    result := some "failure" }

def w7r2 : TestCaseResults :=
  { testname := "test_b", classname := "pkg.CTest", filename := "c.py", line := 9,
    result := some "success" }

/-- C7 witness: the suite counts on a concrete two-record run, via
write_reports_suite_counts. -/
theorem write_reports_suite_counts_witness :
    (suite_props "pkg.CTest" [w7r1, w7r2]).tests =
      ([w7r1, w7r2].filter (fun r => r.classname == (suite_props "pkg.CTest" [w7r1, w7r2]).name)).length ∧
    (suite_props "pkg.CTest" [w7r1, w7r2]).failures =
      count_result ([w7r1, w7r2].filter (fun r => r.classname == (suite_props "pkg.CTest" [w7r1, w7r2]).name)) FAILURE ∧
    (suite_props "pkg.CTest" [w7r1, w7r2]).errors =
      count_result ([w7r1, w7r2].filter (fun r => r.classname == (suite_props "pkg.CTest" [w7r1, w7r2]).name)) ERROR ∧
    (suite_props "pkg.CTest" [w7r1, w7r2]).skipped =
      count_result ([w7r1, w7r2].filter (fun r => r.classname == (suite_props "pkg.CTest" [w7r1, w7r2]).name)) SKIPPED ∧
    (suite_props "pkg.CTest" [w7r1, w7r2]).success =
      count_result ([w7r1, w7r2].filter (fun r => r.classname == (suite_props "pkg.CTest" [w7r1, w7r2]).name)) SUCCESS ∧
    (suite_props "pkg.CTest" [w7r1, w7r2]).failures + (suite_props "pkg.CTest" [w7r1, w7r2]).errors +
      (suite_props "pkg.CTest" [w7r1, w7r2]).skipped + (suite_props "pkg.CTest" [w7r1, w7r2]).success =
      (suite_props "pkg.CTest" [w7r1, w7r2]).tests :=
  ⟨(write_reports_suite_counts [w7r1, w7r2] (suite_props "pkg.CTest" [w7r1, w7r2]) (by decide)).1,
    (write_reports_suite_counts [w7r1, w7r2] (suite_props "pkg.CTest" [w7r1, w7r2]) (by decide)).2.1,
    (write_reports_suite_counts [w7r1, w7r2] (suite_props "pkg.CTest" [w7r1, w7r2]) (by decide)).2.2.1,
    (write_reports_suite_counts [w7r1, w7r2] (suite_props "pkg.CTest" [w7r1, w7r2]) (by decide)).2.2.2.1,
    (write_reports_suite_counts [w7r1, w7r2] (suite_props "pkg.CTest" [w7r1, w7r2]) (by decide)).2.2.2.2.1,
    (write_reports_suite_counts [w7r1, w7r2] (suite_props "pkg.CTest" [w7r1, w7r2]) (by decide)).2.2.2.2.2
      (by decide)⟩

/-- Record that never got a result, for the C7 counterexample. -/
def c7Record : TestCaseResults :=
  { testname := "test_y", classname := "pkg.C", filename := "c.py", line := 3 }

def c7Suite : SuiteProps := (write_reports [c7Record]).headD (suite_props "" [])

/-- C7 counterexample: one record whose result was never assigned
gives a suite with one test whose four result counts sum to zero, so
the sum does not equal the tests count, refuting the claim as
stated. -/
theorem write_reports_suite_counts_cex :
    write_reports [c7Record] = [c7Suite] ∧
    c7Suite.tests = 1 ∧
    c7Suite.failures + c7Suite.errors + c7Suite.skipped + c7Suite.success = 0 ∧
    c7Suite.failures + c7Suite.errors + c7Suite.skipped + c7Suite.success ≠ c7Suite.tests := by
  decide
